import Mathlib

/-!
Verification of the presence and call-signaling coordinator of the
gigga-chat backend.

The development shallowly embeds the coordinator variants present in the
repository:

* `SM` — the `SocketManager` class of `src/controllers/socket.chat.ts`,
  the controller actually wired into the server by `socket_messages`
  (imported from `src/index.ts`).  It keeps three in-memory maps
  (`activeConversations`, `connectedUsers`, `activeCalls`) and has no
  server-side call timers and no per-call status field.
* `CH` — the `CallHandler` class bundled with `src/index.ts`
  (per-call `status` field, server-side 30 s timers, no offline check).
* `P1` — the `SocketManager` variant of `src/unnamed/part_001`
  (no `status` field, server-side 30 s timers scheduled at initiate,
  guarded at fire time by the existence of the call record).

JavaScript `Map`s are modelled as association lists (`JsMap`), socket and
room emissions as values of the `Emit` inductive, and each event handler
as a pure function `State → Event → State × List Emit`.  Timers are made
explicit: a pending `setTimeout` is a triple (timer id, call id,
deadline) and firing or clearing it is a separate transition.  Wall-clock
reads (`new Date()`) read a `now` field of the state, advanced by an
explicit `tick` transition.  Transport-level room subscription
(`socket.join` / `socket.leave`) is not modelled; an emission records the
room or socket it targets.
-/

namespace JsMap

/-- Lookup in a JavaScript `Map` modelled as an association list
(`Map.prototype.get`). -/
def get {α : Type} : List (String × α) → String → Option α
  | [], _ => none
  | (k', v) :: m, k => if k' = k then some v else get m k

/-- Insert or overwrite (`Map.prototype.set`): replaces the binding in
place if the key is present, otherwise appends it. -/
def set {α : Type} : List (String × α) → String → α → List (String × α)
  | [], k, v => [(k, v)]
  | (k', v') :: m, k, v => if k' = k then (k, v) :: m else (k', v') :: set m k v

/-- Removal (`Map.prototype.delete`): drops every binding of the key
(a JS map holds at most one). -/
def erase {α : Type} : List (String × α) → String → List (String × α)
  | [], _ => []
  | (k', v) :: m, k => if k' = k then erase m k else (k', v) :: erase m k

end JsMap

/-- Call type, `'video' | 'audio'`. -/
inductive CallType
  | video
  | audio
deriving DecidableEq, Repr

/-- `CallData` of `src/controllers/socket.chat.ts` (no status field).
The ISO timestamp string is modelled as milliseconds since epoch. -/
structure CallData where
  callId : String
  callType : CallType
  callerId : String
  callerName : String
  callerImage : Option String
  recipientId : String
  timestamp : Nat
deriving DecidableEq, Repr

/-- `UserSocket`: presence-registry entry of a connected user. -/
structure UserSocket where
  userId : String
  socketId : String
  activeConversations : List String
deriving DecidableEq, Repr

/-- `ActiveConversation`: room record of a two-party conversation. -/
structure ActiveConversation where
  participants : List String
  roomId : String
  lastActivity : Nat
deriving DecidableEq, Repr

/-- `CallData` of `src/unnamed/part_001` (adds `recipientName`). -/
structure P1Call where
  callId : String
  callType : CallType
  callerId : String
  callerName : String
  callerImage : Option String
  recipientId : String
  recipientName : String
  timestamp : Nat
deriving DecidableEq, Repr

/-- Call status of the `CallHandler` variant in `src/index.ts`. -/
inductive CallStatus
  | initiated
  | ringing
  | accepted
  | rejected
  | ended
deriving DecidableEq, Repr

/-- `CallData` of the `CallHandler` variant in `src/index.ts`
(adds `status`). -/
structure CHCall where
  callId : String
  callType : CallType
  callerId : String
  callerName : String
  callerImage : Option String
  recipientId : String
  timestamp : Nat
  status : CallStatus
deriving DecidableEq, Repr

/-- Destination of an emission: a concrete socket (`socket.emit`) or a
room (`io.to(room).emit`; every user joins the room named by their own
user id). -/
inductive Target
  | sock (sid : String)
  | room (name : String)
deriving DecidableEq, Repr

/-- One outbound event, tagged with its destination and the payload
fields the handlers actually send. -/
inductive Emit
  | connected (t : Target) (userId : String)
  | userJoinedConversation (t : Target) (userId conversationId : String)
      (connectedUsers : List String)
  | conversationJoined (t : Target) (conversationId otherUserId : String)
      (connectedUsers : List String) (isOtherUserOnline : Bool)
  | userLeftConversation (t : Target) (userId conversationId : String)
      (reason : Option String)
  | receiveMessage (t : Target) (senderId message messageType : String)
      (timestamp : Nat) (conversationId : String)
  | messageSent (t : Target) (isReceiverOnline : Bool) (conversationId : String)
  | userTyping (t : Target) (userId : String) (isTyping : Bool)
      (conversationId : String)
  | callFailed (t : Target) (callId reason : String)
  | callIncoming (t : Target) (call : CallData)
  | callIncomingP1 (t : Target) (call : P1Call)
  | incomingCall (t : Target) (callId : String) (callType : CallType)
      (callerId callerName : String) (callerImage : Option String)
      (timestamp : Nat)
  | callInitiated (t : Target) (callId recipientId status : String)
  | callError (t : Target) (callId error : String)
  | callAccepted (t : Target) (callId acceptorId : String)
      (acceptorName : Option String)
  | callRejected (t : Target) (callId reason rejectedBy : String)
  | callEnded (t : Target) (callId endedBy : String) (duration : Option Nat)
      (reason : Option String)
  | callTimeoutEmit (t : Target) (callId : String) (reason : Option String)
  | webrtcOffer (t : Target) (callId offer senderId : String)
  | webrtcAnswer (t : Target) (callId answer senderId : String)
  | webrtcIceCandidate (t : Target) (callId candidate senderId : String)
  | webrtcError (t : Target) (callId error : String)
deriving DecidableEq, Repr

namespace SM

/-- State of the wired `SocketManager`
(`src/controllers/socket.chat.ts`): the three class-level maps plus the
wall clock. -/
structure State where
  activeConversations : List (String × ActiveConversation)
  connectedUsers : List (String × UserSocket)
  activeCalls : List (String × CallData)
  now : Nat
deriving DecidableEq, Repr

/-- The maps start empty. -/
def init : State := ⟨[], [], [], 0⟩

/-- Lexicographic comparison of character lists, modelling the string
comparison used by JavaScript's default `Array.prototype.sort`. -/
def charListLe : List Char → List Char → Bool
  | [], _ => true
  | _ :: _, [] => false
  | c :: cs, d :: ds =>
      if c.toNat < d.toNat then true
      else if d.toNat < c.toNat then false
      else charListLe cs ds

/-- String comparison via `charListLe`. -/
def strLe (a b : String) : Bool := charListLe a.data b.data

/-- `createConversationId`: `[userId1, userId2].sort().join('_')`. -/
def createConversationId (userId1 userId2 : String) : String :=
  if strLe userId1 userId2 then userId1 ++ "_" ++ userId2
  else userId2 ++ "_" ++ userId1

/-- `getConnectedUsersInConversation`: participants of the conversation
that are present in `connectedUsers`. -/
def getConnectedUsersInConversation (s : State) (conversationId : String) :
    List String :=
  match JsMap.get s.activeConversations conversationId with
  | none => []
  | some conversation =>
      conversation.participants.filter
        (fun userId => (JsMap.get s.connectedUsers userId).isSome)

/-- `getCallDuration`: seconds elapsed since the call's creation
timestamp. -/
def getCallDuration (s : State) (startTime : Nat) : Nat :=
  (s.now - startTime) / 1000

/-- Inbound events.  Each client-issued event carries the user id bound
to the connection by the auth middleware (`uid`) and the connection's
socket id (`sid`); the remaining arguments are the client-supplied
payload.  `tick` models the passage of wall-clock time. -/
inductive Event
  | connect (uid sid : String)
  | joinConversation (uid sid otherUserId : String)
  | leaveConversation (uid sid otherUserId : String)
  | sendMessage (uid sid receiverId message : String) (messageType : Option String)
  | typingStart (uid sid receiverId : String)
  | typingStop (uid sid receiverId : String)
  | callInitiate (uid sid callId : String) (callType : CallType)
      (callerId callerName : String) (callerImage : Option String)
      (recipientId : String)
  | callAccept (uid sid callId callerId : String)
  | callReject (uid sid callId callerId : String) (reason : Option String)
  | callEnd (uid sid callId recipientId : String)
  | callTimeout (uid sid callId recipientId : String)
  | webrtcOffer (uid sid callId recipientId offer : String)
  | webrtcAnswer (uid sid callId recipientId answer : String)
  | webrtcIce (uid sid callId recipientId candidate : String)
  | disconnect (uid sid : String)
  | tick (ms : Nat)
deriving DecidableEq, Repr

/-- Connection handler prologue: register the user (overwriting any
previous registration) and confirm. -/
def stepConnect (s : State) (uid sid : String) : State × List Emit :=
  ({ s with connectedUsers :=
      JsMap.set s.connectedUsers uid ⟨uid, sid, []⟩ },
   [Emit.connected (Target.sock sid) uid])

/-- Conversation-map update of the `join_conversation` handler: create
the room lazily or touch its last-activity time. -/
def joinConvRooms (s : State) (uid otherUserId conversationId : String) :
    List (String × ActiveConversation) :=
  match JsMap.get s.activeConversations conversationId with
  | none =>
      JsMap.set s.activeConversations conversationId
        ⟨[uid, otherUserId], conversationId, s.now⟩
  | some conversation =>
      JsMap.set s.activeConversations conversationId
        { conversation with lastActivity := s.now }

/-- Presence-map update of the `join_conversation` handler: record the
conversation in the user's list unless already present. -/
def joinConvUsers (s : State) (uid conversationId : String) :
    List (String × UserSocket) :=
  match JsMap.get s.connectedUsers uid with
  | none => s.connectedUsers
  | some userSocket =>
      if conversationId ∈ userSocket.activeConversations then
        s.connectedUsers
      else
        JsMap.set s.connectedUsers uid
          { userSocket with activeConversations :=
              (userSocket.activeConversations ++ [conversationId]) }

/-- `join_conversation` handler. -/
def stepJoinConversation (s : State) (uid sid otherUserId : String) :
    State × List Emit :=
  let conversationId := createConversationId uid otherUserId
  let s' := { s with
      activeConversations := joinConvRooms s uid otherUserId conversationId,
      connectedUsers := joinConvUsers s uid conversationId }
  let connectedInConversation :=
    getConnectedUsersInConversation s' conversationId
  (s',
   [Emit.userJoinedConversation (Target.room conversationId) uid
      conversationId connectedInConversation,
    Emit.conversationJoined (Target.sock sid) conversationId otherUserId
      connectedInConversation
      (connectedInConversation.contains otherUserId)])

/-- Presence-map update of the `leave_conversation` handler: drop the
conversation from the user's list. -/
def leaveConvUsers (s : State) (uid conversationId : String) :
    List (String × UserSocket) :=
  match JsMap.get s.connectedUsers uid with
  | none => s.connectedUsers
  | some userSocket =>
      JsMap.set s.connectedUsers uid
        { userSocket with activeConversations :=
            (userSocket.activeConversations.filter
              (fun i => i != conversationId)) }

/-- `leave_conversation` handler. -/
def stepLeaveConversation (s : State) (uid sid otherUserId : String) :
    State × List Emit :=
  let conversationId := createConversationId uid otherUserId
  ({ s with connectedUsers := leaveConvUsers s uid conversationId },
   [Emit.userLeftConversation (Target.room conversationId) uid
      conversationId none])

/-- `send_message` handler. -/
def stepSendMessage (s : State) (uid sid receiverId message : String)
    (messageType : Option String) : State × List Emit :=
  let conversationId := createConversationId uid receiverId
  let conversation :=
    (JsMap.get s.activeConversations conversationId).getD
      ⟨[uid, receiverId], conversationId, s.now⟩
  let conversations :=
    JsMap.set s.activeConversations conversationId
      { conversation with lastActivity := s.now }
  let isReceiverOnline := (JsMap.get s.connectedUsers receiverId).isSome
  ({ s with activeConversations := conversations },
   [Emit.receiveMessage (Target.room conversationId) uid message
      (messageType.getD "text") s.now conversationId,
    Emit.messageSent (Target.sock sid) isReceiverOnline conversationId])

/-- `call:initiate` handler: auth check, offline check, busy check, then
record creation and the two notifications.  No timer is scheduled in
this variant. -/
def stepCallInitiate (s : State) (uid sid callId : String)
    (callType : CallType) (callerId callerName : String)
    (callerImage : Option String) (recipientId : String) :
    State × List Emit :=
  if callerId ≠ uid then
    (s, [Emit.callFailed (Target.sock sid) callId "Authentication error"])
  else if (JsMap.get s.connectedUsers recipientId).isNone then
    (s, [Emit.callFailed (Target.sock sid) callId "Recipient is offline"])
  else
    match (s.activeCalls.map Prod.snd).find?
        (fun call => call.recipientId == recipientId) with
    | some _ =>
        (s, [Emit.callFailed (Target.sock sid) callId
              "Recipient is already in a call"])
    | none =>
        let callData : CallData :=
          ⟨callId, callType, callerId, callerName, callerImage,
           recipientId, s.now⟩
        ({ s with activeCalls := JsMap.set s.activeCalls callId callData },
         [Emit.callIncoming (Target.room recipientId) callData,
          Emit.callInitiated (Target.sock sid) callId recipientId "ringing"])

/-- `call:accept` handler: existence and callee checks, then a
notification to the payload-supplied caller id; the map is untouched. -/
def stepCallAccept (s : State) (uid sid callId callerId : String) :
    State × List Emit :=
  match JsMap.get s.activeCalls callId with
  | none =>
      (s, [Emit.callError (Target.sock sid) callId "Call not found"])
  | some callData =>
      if callData.recipientId ≠ uid then
        (s, [Emit.callError (Target.sock sid) callId
              "Not authorized to accept this call"])
      else
        (s, [Emit.callAccepted (Target.room callerId) callId uid
              (some "User")])

/-- `call:reject` handler: unconditional delete, notification to the
payload-supplied caller id. -/
def stepCallReject (s : State) (uid sid callId callerId : String)
    (reason : Option String) : State × List Emit :=
  ({ s with activeCalls := JsMap.erase s.activeCalls callId },
   [Emit.callRejected (Target.room callerId) callId
      (reason.getD "Call rejected") uid])

/-- `call:end` handler: unconditional delete, notification to the
payload-supplied recipient id with the computed duration. -/
def stepCallEnd (s : State) (uid sid callId recipientId : String) :
    State × List Emit :=
  let duration :=
    match JsMap.get s.activeCalls callId with
    | some callData => getCallDuration s callData.timestamp
    | none => 0
  ({ s with activeCalls := JsMap.erase s.activeCalls callId },
   [Emit.callEnded (Target.room recipientId) callId uid (some duration) none])

/-- `call:timeout` handler (client-issued in this variant):
unconditional delete, notification to the payload-supplied recipient. -/
def stepCallTimeout (s : State) (uid sid callId recipientId : String) :
    State × List Emit :=
  ({ s with activeCalls := JsMap.erase s.activeCalls callId },
   [Emit.callTimeoutEmit (Target.room recipientId) callId none])

/-- `webrtc:offer` handler: explicit error to the sender when the call
is unknown. -/
def stepWebrtcOffer (s : State) (uid sid callId recipientId offer : String) :
    State × List Emit :=
  if (JsMap.get s.activeCalls callId).isNone then
    (s, [Emit.webrtcError (Target.sock sid) callId "Call not found"])
  else
    (s, [Emit.webrtcOffer (Target.room recipientId) callId offer uid])

/-- `webrtc:answer` handler: explicit error to the sender when the call
is unknown. -/
def stepWebrtcAnswer (s : State) (uid sid callId recipientId answer : String) :
    State × List Emit :=
  if (JsMap.get s.activeCalls callId).isNone then
    (s, [Emit.webrtcError (Target.sock sid) callId "Call not found"])
  else
    (s, [Emit.webrtcAnswer (Target.room recipientId) callId answer uid])

/-- `webrtc:ice-candidate` handler: silent no-op when the call is
unknown. -/
def stepWebrtcIce (s : State) (uid sid callId recipientId candidate : String) :
    State × List Emit :=
  if (JsMap.get s.activeCalls callId).isNone then
    (s, [])
  else
    (s, [Emit.webrtcIceCandidate (Target.room recipientId) callId
          candidate uid])

/-- Whether a call involves the user as caller or callee. -/
def involves (uid : String) (call : CallData) : Bool :=
  call.callerId == uid || call.recipientId == uid

/-- The other party of a call from the viewpoint of `uid`. -/
def otherParty (uid : String) (call : CallData) : String :=
  if call.callerId == uid then call.recipientId else call.callerId

/-- `disconnect` handler: left-notifications for the stored conversation
list, then termination of every call involving the user, then removal of
the presence registration (keyed by user id only; the disconnecting
socket id is not consulted). -/
def stepDisconnect (s : State) (uid sid : String) : State × List Emit :=
  let activeConversationIds :=
    match JsMap.get s.connectedUsers uid with
    | none => []
    | some userSocket => userSocket.activeConversations
  let leftEmits := activeConversationIds.map
    (fun conversationId =>
      Emit.userLeftConversation (Target.room conversationId) uid
        conversationId (some "disconnect"))
  let endedEmits := (s.activeCalls.filter
      (fun p => involves uid p.2)).map
    (fun p =>
      Emit.callEnded (Target.room (otherParty uid p.2)) p.1 uid none
        (some "User disconnected"))
  ({ s with
      activeCalls := s.activeCalls.filter (fun p => !(involves uid p.2)),
      connectedUsers := JsMap.erase s.connectedUsers uid },
   leftEmits ++ endedEmits)

/-- One step of the wired `SocketManager`: dispatch on the event. -/
def step (s : State) : Event → State × List Emit
  | .connect uid sid => stepConnect s uid sid
  | .joinConversation uid sid otherUserId =>
      stepJoinConversation s uid sid otherUserId
  | .leaveConversation uid sid otherUserId =>
      stepLeaveConversation s uid sid otherUserId
  | .sendMessage uid sid receiverId message messageType =>
      stepSendMessage s uid sid receiverId message messageType
  | .typingStart uid _sid receiverId =>
      (s, [Emit.userTyping
            (Target.room (createConversationId uid receiverId)) uid true
            (createConversationId uid receiverId)])
  | .typingStop uid _sid receiverId =>
      (s, [Emit.userTyping
            (Target.room (createConversationId uid receiverId)) uid false
            (createConversationId uid receiverId)])
  | .callInitiate uid sid callId callType callerId callerName callerImage
      recipientId =>
      stepCallInitiate s uid sid callId callType callerId callerName
        callerImage recipientId
  | .callAccept uid sid callId callerId =>
      stepCallAccept s uid sid callId callerId
  | .callReject uid sid callId callerId reason =>
      stepCallReject s uid sid callId callerId reason
  | .callEnd uid sid callId recipientId =>
      stepCallEnd s uid sid callId recipientId
  | .callTimeout uid sid callId recipientId =>
      stepCallTimeout s uid sid callId recipientId
  | .webrtcOffer uid sid callId recipientId offer =>
      stepWebrtcOffer s uid sid callId recipientId offer
  | .webrtcAnswer uid sid callId recipientId answer =>
      stepWebrtcAnswer s uid sid callId recipientId answer
  | .webrtcIce uid sid callId recipientId candidate =>
      stepWebrtcIce s uid sid callId recipientId candidate
  | .disconnect uid sid => stepDisconnect s uid sid
  | .tick ms => ({ s with now := s.now + ms }, [])

/-- States reachable from the empty coordinator by any event sequence. -/
inductive Reachable : State → Prop
  | init : Reachable init
  | step {s : State} (h : Reachable s) (e : Event) : Reachable (step s e).1

/-- Run a list of events from a state, discarding emissions. -/
def run (s : State) : List Event → State
  | [] => s
  | e :: es => run (step s e).1 es

/-- All calls in the map have pairwise distinct callees: at most one
call per callee.  In this variant there is no status field, so every
entry of `activeCalls` counts as a non-terminal (ringing or accepted)
call. -/
def CalleeUnique (calls : List (String × CallData)) : Prop :=
  (calls.map Prod.snd).Pairwise
    (fun a b => a.recipientId ≠ b.recipientId)

/-- Every active call's callee is registered in the presence map. -/
def CalleesOnline (s : State) : Prop :=
  ∀ p ∈ s.activeCalls, (JsMap.get s.connectedUsers p.2.recipientId).isSome

/-- Every registered user's joined-conversation list is duplicate
free. -/
def ConvListsNodup (s : State) : Prop :=
  ∀ q ∈ s.connectedUsers, q.2.activeConversations.Nodup

/-- The inductive invariant of the wired coordinator. -/
def Inv (s : State) : Prop :=
  CalleeUnique s.activeCalls ∧ CalleesOnline s ∧ ConvListsNodup s

/-- The conversation list stored for a user, empty when the user is not
registered (`userSocket?.activeConversations || []`). -/
def joinedConversations (s : State) (uid : String) : List String :=
  match JsMap.get s.connectedUsers uid with
  | none => []
  | some userSocket => userSocket.activeConversations

end SM

/-- Recognize a left-conversation notification for a given room. -/
def emitIsLeftFor (conversationId : String) : Emit → Bool
  | .userLeftConversation _ _ c _ => c == conversationId
  | _ => false

namespace CH

/-- State of the `CallHandler` variant of `src/index.ts`: the two
class-level maps plus explicit pending timers.  A pending entry
`(tid, callId, deadline)` stands for a scheduled `setTimeout`; `nextTid`
generates fresh timer handles. -/
structure State where
  activeCalls : List (String × CHCall)
  callTimeouts : List (String × Nat)
  pending : List (Nat × String × Nat)
  nextTid : Nat
  now : Nat
deriving DecidableEq, Repr

/-- Empty `CallHandler` state. -/
def init : State := ⟨[], [], [], 0, 0⟩

/-- `clearCallTimeout`: cancel and forget the timer mapped to the call,
if any. -/
def clearCallTimeout (s : State) (callId : String) : State :=
  match JsMap.get s.callTimeouts callId with
  | none => s
  | some tid =>
      { s with
          pending := s.pending.filter (fun x => x.1 != tid),
          callTimeouts := JsMap.erase s.callTimeouts callId }

/-- `handleCallInitiate`: auth check, then busy check restricted to
calls whose status is `ringing` (no offline check in this variant);
creates the call in `ringing` state and schedules a 30 s timer. -/
def handleCallInitiate (s : State) (uid sid callId : String)
    (callType : CallType) (callerId callerName : String)
    (callerImage : Option String) (recipientId : String) :
    State × List Emit :=
  if callerId ≠ uid then
    (s, [Emit.callFailed (Target.sock sid) callId "Authentication error"])
  else
    match (s.activeCalls.map Prod.snd).find?
        (fun call => call.recipientId == recipientId
          && call.status == CallStatus.ringing) with
    | some _ =>
        (s, [Emit.callFailed (Target.sock sid) callId
              "Recipient is already in a call"])
    | none =>
        let callData : CHCall :=
          ⟨callId, callType, callerId, callerName, callerImage,
           recipientId, s.now, CallStatus.ringing⟩
        ({ s with
            activeCalls := JsMap.set s.activeCalls callId callData,
            pending := s.pending ++ [(s.nextTid, callId, s.now + 30000)],
            callTimeouts := JsMap.set s.callTimeouts callId s.nextTid,
            nextTid := s.nextTid + 1 },
         [Emit.incomingCall (Target.room recipientId) callId callType
            callerId callerName callerImage s.now,
          Emit.callInitiated (Target.sock sid) callId recipientId "ringing"])

/-- `handleCallAccept`: existence check, callee check, status update to
`accepted`, timer cancellation, notification to the payload-supplied
caller id. -/
def handleCallAccept (s : State) (uid sid callId callerId : String) :
    State × List Emit :=
  match JsMap.get s.activeCalls callId with
  | none =>
      (s, [Emit.callError (Target.sock sid) callId "Call not found"])
  | some callData =>
      if callData.recipientId ≠ uid then
        (s, [Emit.callError (Target.sock sid) callId
              "Not authorized to accept this call"])
      else
        let s1 := { s with activeCalls :=
            (JsMap.set s.activeCalls callId
              { callData with status := CallStatus.accepted }) }
        (clearCallTimeout s1 callId,
         [Emit.callAccepted (Target.room callerId) callId uid none])

end CH

namespace P1

/-- State of the `SocketManager` variant in `src/unnamed/part_001`,
restricted to the call subsystem (its conversation and message handlers
never touch `activeCalls` or `callTimeouts`).  Pending timers are
explicit, as in `CH.State`. -/
structure State where
  connectedUsers : List (String × UserSocket)
  activeCalls : List (String × P1Call)
  callTimeouts : List (String × Nat)
  pending : List (Nat × String × Nat)
  nextTid : Nat
  now : Nat
deriving DecidableEq, Repr

/-- Empty state. -/
def init : State := ⟨[], [], [], [], 0, 0⟩

/-- Connection prologue: register the user. -/
def connect (s : State) (uid sid : String) : State :=
  { s with connectedUsers := JsMap.set s.connectedUsers uid ⟨uid, sid, []⟩ }

/-- `clearCallTimeout`. -/
def clearCallTimeout (s : State) (callId : String) : State :=
  match JsMap.get s.callTimeouts callId with
  | none => s
  | some tid =>
      { s with
          pending := s.pending.filter (fun x => x.1 != tid),
          callTimeouts := JsMap.erase s.callTimeouts callId }

/-- `call:initiate` handler: auth check, offline check, busy check, then
record creation and a 30 s timer whose callback is guarded at fire time
by the existence of the call record. -/
def callInitiate (s : State) (uid sid callId : String)
    (callType : CallType) (callerId callerName : String)
    (callerImage : Option String) (recipientId recipientName : String) :
    State × List Emit :=
  if callerId ≠ uid then
    (s, [Emit.callFailed (Target.sock sid) callId "Authentication error"])
  else if (JsMap.get s.connectedUsers recipientId).isNone then
    (s, [Emit.callFailed (Target.sock sid) callId "Recipient is offline"])
  else
    match (s.activeCalls.map Prod.snd).find?
        (fun call => call.recipientId == recipientId) with
    | some _ =>
        (s, [Emit.callFailed (Target.sock sid) callId
              "Recipient is already in a call"])
    | none =>
        let callData : P1Call :=
          ⟨callId, callType, callerId, callerName, callerImage,
           recipientId, recipientName, s.now⟩
        ({ s with
            activeCalls := JsMap.set s.activeCalls callId callData,
            pending := s.pending ++ [(s.nextTid, callId, s.now + 30000)],
            callTimeouts := JsMap.set s.callTimeouts callId s.nextTid,
            nextTid := s.nextTid + 1 },
         [Emit.callIncomingP1 (Target.room recipientId) callData,
          Emit.callInitiated (Target.sock sid) callId recipientId "ringing"])

/-- Delivery of a scheduled timer by the runtime.  The pending entry is
consumed unconditionally; the callback body then re-checks that the call
record still exists (`if (call) { ... }`) before timing the call out. -/
def fire (s : State) (tid : Nat) : State × List Emit :=
  match s.pending.find? (fun x => x.1 == tid) with
  | none => (s, [])
  | some (_, callId, _) =>
      let s1 := { s with pending := s.pending.filter (fun x => x.1 != tid) }
      match JsMap.get s1.activeCalls callId with
      | none => (s1, [])
      | some call =>
          ({ s1 with
              activeCalls := JsMap.erase s1.activeCalls callId,
              callTimeouts := JsMap.erase s1.callTimeouts callId },
           [Emit.callTimeoutEmit (Target.room call.callerId) callId
              (some "No answer from recipient"),
            Emit.callTimeoutEmit (Target.room call.recipientId) callId
              (some "Call timed out")])

/-- `call:accept` handler: existence and callee checks, then timer
cancellation and a notification to the payload-supplied caller id (the
record itself is not modified in this variant). -/
def callAccept (s : State) (uid sid callId callerId : String) :
    State × List Emit :=
  match JsMap.get s.activeCalls callId with
  | none =>
      (s, [Emit.callError (Target.sock sid) callId "Call not found"])
  | some callData =>
      if callData.recipientId ≠ uid then
        (s, [Emit.callError (Target.sock sid) callId
              "Not authorized to accept this call"])
      else
        (clearCallTimeout s callId,
         [Emit.callAccepted (Target.room callerId) callId uid
            (some "User")])

/-- `call:reject` handler: unconditional delete plus timer
cancellation. -/
def callReject (s : State) (uid sid callId callerId : String)
    (reason : Option String) : State × List Emit :=
  let s1 := { s with activeCalls := JsMap.erase s.activeCalls callId }
  (clearCallTimeout s1 callId,
   [Emit.callRejected (Target.room callerId) callId
      (reason.getD "Call rejected") uid])

/-- `call:end` handler: unconditional delete plus timer cancellation. -/
def callEnd (s : State) (uid sid callId recipientId : String) :
    State × List Emit :=
  let duration :=
    match JsMap.get s.activeCalls callId with
    | some callData => (s.now - callData.timestamp) / 1000
    | none => 0
  let s1 := { s with activeCalls := JsMap.erase s.activeCalls callId }
  (clearCallTimeout s1 callId,
   [Emit.callEnded (Target.room recipientId) callId uid (some duration) none])

/-- `call:timeout` handler (client-issued): unconditional delete plus
timer cancellation. -/
def callTimeout (s : State) (uid sid callId recipientId : String) :
    State × List Emit :=
  let s1 := { s with activeCalls := JsMap.erase s.activeCalls callId }
  (clearCallTimeout s1 callId,
   [Emit.callTimeoutEmit (Target.room recipientId) callId none])

end P1

/-! ### Concrete scenarios -/

/-- Scenario: users `u1` and `u2` connect, then `u1` places call `c1`
to `u2`, which is now ringing. -/
def ringingTrace : List SM.Event :=
  [SM.Event.connect "u1" "A", SM.Event.connect "u2" "B",
   SM.Event.callInitiate "u1" "A" "c1" CallType.video "u1" "Alice" none "u2"]

/-- The state reached by `ringingTrace`. -/
def sRinging : SM.State := SM.run SM.init ringingTrace

/-- Scenario: `u1` additionally joined the conversation with `u2`
before placing the call. -/
def joinedCallTrace : List SM.Event :=
  [SM.Event.connect "u1" "A", SM.Event.connect "u2" "B",
   SM.Event.joinConversation "u1" "A" "u2",
   SM.Event.callInitiate "u1" "A" "c1" CallType.video "u1" "Alice" none "u2"]

/-- The state reached by `joinedCallTrace`. -/
def sJoinedCall : SM.State := SM.run SM.init joinedCallTrace

/-- Scenario: the same user connects twice (handles `A` then `B`), so
handle `A` is superseded. -/
def sReconnected : SM.State :=
  SM.run SM.init [SM.Event.connect "u" "A", SM.Event.connect "u" "B"]

/-- Scenario: only `u1` is connected (`u2` offline). -/
def sOnlyCaller : SM.State := SM.run SM.init [SM.Event.connect "u1" "A"]

/-- Scenario for the timeout claim: a ringing call, then 30 001 ms of
wall-clock time pass with no further client action. -/
def sRingingLater : SM.State :=
  SM.run SM.init (ringingTrace ++ [SM.Event.tick 30001])

/-- Concrete `P1` state with two users online and call `c1` ringing,
its 30 s timer (timer id 0) pending. -/
def p1Ringing : P1.State :=
  (P1.callInitiate (P1.connect (P1.connect P1.init "u1" "A") "u2" "B")
    "u1" "A" "c1" CallType.video "u1" "Alice" none "u2" "Bob").1

/-- Concrete `CH` state with call `c1` ringing (timer id 0 pending). -/
def chRinging : CH.State :=
  (CH.handleCallInitiate CH.init "u1" "A" "c1" CallType.video "u1" "Alice"
    none "u2").1

/-! ### Association-list lemmas -/

namespace JsMap

theorem get_set_self {α : Type} (m : List (String × α)) (k : String) (v : α) :
    get (set m k v) k = some v := by
  induction m with
  | nil => simp [set, get]
  | cons p m ih =>
      obtain ⟨k', v'⟩ := p
      by_cases h : k' = k
      · simp [set, get, h]
      · simp [set, get, h, ih]

theorem get_set_ne {α : Type} (m : List (String × α)) (k q : String) (v : α)
    (h : q ≠ k) : get (set m k v) q = get m q := by
  induction m with
  | nil => simp [set, get, Ne.symm h]
  | cons p m ih =>
      obtain ⟨k', v'⟩ := p
      by_cases hk : k' = k
      · subst hk
        simp [set, get, Ne.symm h]
      · simp only [set, if_neg hk, get]
        by_cases hq : k' = q
        · simp [hq]
        · simp [hq, ih]

theorem mem_set {α : Type} {m : List (String × α)} {k : String} {v : α}
    {p : String × α} (h : p ∈ set m k v) : p = (k, v) ∨ p ∈ m := by
  induction m with
  | nil => simpa [set] using h
  | cons q m ih =>
      obtain ⟨k', v'⟩ := q
      by_cases hk : k' = k
      · simp only [set, if_pos hk, List.mem_cons] at h
        rcases h with h | h
        · exact Or.inl h
        · exact Or.inr (List.mem_cons_of_mem _ h)
      · simp only [set, if_neg hk, List.mem_cons] at h
        rcases h with h | h
        · exact Or.inr (by simp [h])
        · rcases ih h with h' | h'
          · exact Or.inl h'
          · exact Or.inr (List.mem_cons_of_mem _ h')

theorem get_erase_self {α : Type} (m : List (String × α)) (k : String) :
    get (erase m k) k = none := by
  induction m with
  | nil => simp [erase, get]
  | cons p m ih =>
      obtain ⟨k', v'⟩ := p
      by_cases h : k' = k
      · simp [erase, h, ih]
      · simp [erase, get, h, ih]

theorem get_erase_ne {α : Type} (m : List (String × α)) (k q : String)
    (h : q ≠ k) : get (erase m k) q = get m q := by
  induction m with
  | nil => simp [erase]
  | cons p m ih =>
      obtain ⟨k', v'⟩ := p
      by_cases hk : k' = k
      · subst hk
        simp [erase, get, Ne.symm h, ih]
      · simp only [erase, if_neg hk, get]
        by_cases hq : k' = q
        · simp [hq]
        · simp [hq, ih]

theorem mem_of_mem_erase {α : Type} {m : List (String × α)} {k : String}
    {p : String × α} (h : p ∈ erase m k) : p ∈ m := by
  induction m with
  | nil => simp [erase] at h
  | cons q m ih =>
      obtain ⟨k', v'⟩ := q
      by_cases hk : k' = k
      · simp only [erase, if_pos hk] at h
        exact List.mem_cons_of_mem _ (ih h)
      · simp only [erase, if_neg hk, List.mem_cons] at h
        rcases h with h | h
        · simp [h]
        · exact List.mem_cons_of_mem _ (ih h)

theorem keys_ne_of_get_none {α : Type} {m : List (String × α)} {k : String}
    (h : get m k = none) : ∀ p ∈ m, p.1 ≠ k := by
  induction m with
  | nil => simp
  | cons q m ih =>
      obtain ⟨k', v'⟩ := q
      by_cases hk : k' = k
      · simp [get, hk] at h
      · simp only [get, if_neg hk] at h
        intro p hp
        rcases List.mem_cons.mp hp with rfl | hp'
        · exact hk
        · exact ih h p hp'

theorem erase_of_get_none {α : Type} {m : List (String × α)} {k : String}
    (h : get m k = none) : erase m k = m := by
  induction m with
  | nil => simp [erase]
  | cons q m ih =>
      obtain ⟨k', v'⟩ := q
      by_cases hk : k' = k
      · simp [get, hk] at h
      · simp only [get, if_neg hk] at h
        simp [erase, hk, ih h]

theorem isSome_get_of_mem {α : Type} {m : List (String × α)}
    {p : String × α} (h : p ∈ m) : (get m p.1).isSome := by
  induction m with
  | nil => simp at h
  | cons q m ih =>
      obtain ⟨k', v'⟩ := q
      rcases List.mem_cons.mp h with rfl | h'
      · simp [get]
      · by_cases hk : k' = p.1
        · simp [get, hk]
        · simp [get, hk, ih h']

theorem mem_of_get_eq_some {α : Type} {m : List (String × α)} {k : String}
    {v : α} (h : get m k = some v) : (k, v) ∈ m := by
  induction m with
  | nil => simp [get] at h
  | cons q m ih =>
      obtain ⟨k', v'⟩ := q
      by_cases hk : k' = k
      · subst hk
        simp only [get, if_pos rfl] at h
        simp_all
      · simp only [get, if_neg hk] at h
        exact List.mem_cons_of_mem _ (ih h)

theorem isSome_get_set {α : Type} {m : List (String × α)} {k q : String}
    {v : α} (h : (get m q).isSome) : (get (set m k v) q).isSome := by
  by_cases hq : q = k
  · subst hq
    simp [get_set_self]
  · simpa [get_set_ne m k q v hq] using h

theorem snd_mem_set {α : Type} {m : List (String × α)} {k : String} {v : α}
    {b : α} (h : b ∈ (set m k v).map Prod.snd) :
    b = v ∨ b ∈ m.map Prod.snd := by
  obtain ⟨p, hp, rfl⟩ := List.mem_map.mp h
  rcases mem_set hp with rfl | hp'
  · exact Or.inl rfl
  · exact Or.inr (List.mem_map_of_mem _ hp')

theorem map_snd_erase_sublist {α : Type} (m : List (String × α))
    (k : String) :
    List.Sublist ((erase m k).map Prod.snd) (m.map Prod.snd) := by
  induction m with
  | nil => simp [erase]
  | cons q m ih =>
      obtain ⟨k', v'⟩ := q
      by_cases hk : k' = k
      · simp only [erase, if_pos hk, List.map_cons]
        exact ih.trans (List.sublist_cons_self _ _)
      · simp only [erase, if_neg hk, List.map_cons]
        exact ih.cons₂ _

theorem pairwise_snd_set {α : Type} {R : α → α → Prop}
    {m : List (String × α)} {k : String} {v : α}
    (hm : (m.map Prod.snd).Pairwise R)
    (hv : ∀ p ∈ m, R p.2 v ∧ R v p.2) :
    ((set m k v).map Prod.snd).Pairwise R := by
  induction m with
  | nil => simp [set]
  | cons p m ih =>
      obtain ⟨k', v'⟩ := p
      simp only [List.map_cons, List.pairwise_cons] at hm
      by_cases h : k' = k
      · simp only [set, if_pos h, List.map_cons, List.pairwise_cons]
        refine ⟨?_, hm.2⟩
        intro b hb
        obtain ⟨q, hq, rfl⟩ := List.mem_map.mp hb
        exact (hv q (List.mem_cons_of_mem _ hq)).2
      · simp only [set, if_neg h, List.map_cons, List.pairwise_cons]
        refine ⟨?_, ih hm.2 (fun q hq => hv q (List.mem_cons_of_mem _ hq))⟩
        intro b hb
        rcases snd_mem_set hb with rfl | hb'
        · exact (hv (k', v') (List.mem_cons_self _ _)).1
        · obtain ⟨q, hq, rfl⟩ := List.mem_map.mp hb'
          exact hm.1 _ (List.mem_map_of_mem _ hq)

end JsMap

/-! ### The inductive invariant of the wired coordinator -/

theorem nodup_append_singleton {l : List String} {a : String}
    (h : l.Nodup) (ha : a ∉ l) : (l ++ [a]).Nodup := by
  simp [List.nodup_append, h, ha]

namespace SM

theorem inv_init : Inv init := by
  refine ⟨?_, ?_, ?_⟩
  · simp [CalleeUnique, init]
  · intro p hp
    exact absurd hp (List.not_mem_nil p)
  · intro q hq
    exact absurd hq (List.not_mem_nil q)

theorem inv_stepConnect {s : State} (h : Inv s) (uid sid : String) :
    Inv (stepConnect s uid sid).1 := by
  obtain ⟨h1, h2, h3⟩ := h
  refine ⟨h1, ?_, ?_⟩
  · intro p hp
    exact JsMap.isSome_get_set (h2 p hp)
  · intro q hq
    rcases JsMap.mem_set hq with rfl | hq'
    · simp
    · exact h3 q hq'

theorem isSome_get_joinConvUsers {s : State} {q : String}
    (uid conversationId : String)
    (h : (JsMap.get s.connectedUsers q).isSome) :
    (JsMap.get (joinConvUsers s uid conversationId) q).isSome := by
  unfold joinConvUsers
  rcases hget : JsMap.get s.connectedUsers uid with _ | userSocket
  · exact h
  · by_cases hmem : conversationId ∈ userSocket.activeConversations
    · simp only [if_pos hmem]
      exact h
    · simp only [if_neg hmem]
      exact JsMap.isSome_get_set h

theorem nodup_joinConvUsers {s : State} (h : ConvListsNodup s)
    (uid conversationId : String) :
    ∀ q ∈ joinConvUsers s uid conversationId,
      q.2.activeConversations.Nodup := by
  unfold joinConvUsers
  rcases hget : JsMap.get s.connectedUsers uid with _ | userSocket
  · exact h
  · by_cases hmem : conversationId ∈ userSocket.activeConversations
    · simp only [if_pos hmem]
      exact h
    · simp only [if_neg hmem]
      intro q hq
      rcases JsMap.mem_set hq with rfl | hq'
      · exact nodup_append_singleton
          (h _ (JsMap.mem_of_get_eq_some hget)) hmem
      · exact h q hq'

theorem inv_stepJoinConversation {s : State} (h : Inv s)
    (uid sid otherUserId : String) :
    Inv (stepJoinConversation s uid sid otherUserId).1 := by
  obtain ⟨h1, h2, h3⟩ := h
  refine ⟨h1, ?_, ?_⟩
  · intro p hp
    exact isSome_get_joinConvUsers _ _ (h2 p hp)
  · intro q hq
    exact nodup_joinConvUsers h3 _ _ q hq

theorem isSome_get_leaveConvUsers {s : State} {q : String}
    (uid conversationId : String)
    (h : (JsMap.get s.connectedUsers q).isSome) :
    (JsMap.get (leaveConvUsers s uid conversationId) q).isSome := by
  unfold leaveConvUsers
  rcases hget : JsMap.get s.connectedUsers uid with _ | userSocket
  · exact h
  · exact JsMap.isSome_get_set h

theorem nodup_leaveConvUsers {s : State} (h : ConvListsNodup s)
    (uid conversationId : String) :
    ∀ q ∈ leaveConvUsers s uid conversationId,
      q.2.activeConversations.Nodup := by
  unfold leaveConvUsers
  rcases hget : JsMap.get s.connectedUsers uid with _ | userSocket
  · exact h
  · intro q hq
    rcases JsMap.mem_set hq with rfl | hq'
    · exact (h _ (JsMap.mem_of_get_eq_some hget)).filter _
    · exact h q hq'

theorem inv_stepLeaveConversation {s : State} (h : Inv s)
    (uid sid otherUserId : String) :
    Inv (stepLeaveConversation s uid sid otherUserId).1 := by
  obtain ⟨h1, h2, h3⟩ := h
  refine ⟨h1, ?_, ?_⟩
  · intro p hp
    exact isSome_get_leaveConvUsers _ _ (h2 p hp)
  · intro q hq
    exact nodup_leaveConvUsers h3 _ _ q hq

theorem inv_stepSendMessage {s : State} (h : Inv s)
    (uid sid receiverId message : String) (messageType : Option String) :
    Inv (stepSendMessage s uid sid receiverId message messageType).1 := by
  obtain ⟨h1, h2, h3⟩ := h
  exact ⟨h1, h2, h3⟩

theorem inv_stepCallInitiate {s : State} (h : Inv s)
    (uid sid callId : String) (callType : CallType)
    (callerId callerName : String) (callerImage : Option String)
    (recipientId : String) :
    Inv (stepCallInitiate s uid sid callId callType callerId callerName
      callerImage recipientId).1 := by
  unfold stepCallInitiate
  by_cases h1 : callerId ≠ uid
  · rw [if_pos h1]
    exact h
  · rw [if_neg h1]
    by_cases h2 : (JsMap.get s.connectedUsers recipientId).isNone
    · rw [if_pos h2]
      exact h
    · rw [if_neg h2]
      rcases hfind : (s.activeCalls.map Prod.snd).find?
          (fun call => call.recipientId == recipientId) with _ | c
      · rw [hfind]
        obtain ⟨hc1, hc2, hc3⟩ := h
        have hall : ∀ b ∈ s.activeCalls.map Prod.snd,
            b.recipientId ≠ recipientId := by
          intro b hb
          have hb' := List.find?_eq_none.mp hfind b hb
          simpa using hb'
        have hrecp : (JsMap.get s.connectedUsers recipientId).isSome := by
          rcases hcu : JsMap.get s.connectedUsers recipientId with _ | u
          · exact absurd (by simp [hcu]) h2
          · simp
        refine ⟨?_, ?_, hc3⟩
        · refine JsMap.pairwise_snd_set hc1 ?_
          intro p hp
          exact ⟨hall p.2 (List.mem_map_of_mem _ hp),
                 fun hEq => hall p.2 (List.mem_map_of_mem _ hp) hEq.symm⟩
        · intro p hp
          rcases JsMap.mem_set hp with rfl | hp'
          · exact hrecp
          · exact hc2 p hp'
      · rw [hfind]
        exact h

theorem stepCallAccept_fst (s : State) (uid sid callId callerId : String) :
    (stepCallAccept s uid sid callId callerId).1 = s := by
  unfold stepCallAccept
  split
  · rfl
  · split
    · rfl
    · rfl

theorem inv_erase_calls {s : State} (h : Inv s) (callId : String) :
    Inv { s with activeCalls := JsMap.erase s.activeCalls callId } := by
  obtain ⟨h1, h2, h3⟩ := h
  refine ⟨?_, ?_, h3⟩
  · exact h1.sublist (JsMap.map_snd_erase_sublist _ _)
  · intro p hp
    exact h2 p (JsMap.mem_of_mem_erase hp)

theorem stepWebrtcOffer_fst (s : State)
    (uid sid callId recipientId offer : String) :
    (stepWebrtcOffer s uid sid callId recipientId offer).1 = s := by
  unfold stepWebrtcOffer
  by_cases hc : (JsMap.get s.activeCalls callId).isNone
  · rw [if_pos hc]
  · rw [if_neg hc]

theorem stepWebrtcAnswer_fst (s : State)
    (uid sid callId recipientId answer : String) :
    (stepWebrtcAnswer s uid sid callId recipientId answer).1 = s := by
  unfold stepWebrtcAnswer
  by_cases hc : (JsMap.get s.activeCalls callId).isNone
  · rw [if_pos hc]
  · rw [if_neg hc]

theorem stepWebrtcIce_fst (s : State)
    (uid sid callId recipientId candidate : String) :
    (stepWebrtcIce s uid sid callId recipientId candidate).1 = s := by
  unfold stepWebrtcIce
  by_cases hc : (JsMap.get s.activeCalls callId).isNone
  · rw [if_pos hc]
  · rw [if_neg hc]

theorem inv_stepDisconnect {s : State} (h : Inv s) (uid sid : String) :
    Inv (stepDisconnect s uid sid).1 := by
  obtain ⟨h1, h2, h3⟩ := h
  refine ⟨?_, ?_, ?_⟩
  · exact h1.sublist (List.Sublist.map Prod.snd (List.filter_sublist _))
  · intro p hp
    have hmem := List.mem_filter.mp hp
    have hni : p.2.recipientId ≠ uid := by
      have := hmem.2
      simp [involves] at this
      exact this.2
    show (JsMap.get (JsMap.erase s.connectedUsers uid) p.2.recipientId).isSome
    rw [JsMap.get_erase_ne _ _ _ hni]
    exact h2 p hmem.1
  · intro q hq
    exact h3 q (JsMap.mem_of_mem_erase hq)

theorem inv_step {s : State} (h : Inv s) (e : Event) : Inv (step s e).1 := by
  cases e with
  | connect uid sid => exact inv_stepConnect h uid sid
  | joinConversation uid sid otherUserId =>
      exact inv_stepJoinConversation h uid sid otherUserId
  | leaveConversation uid sid otherUserId =>
      exact inv_stepLeaveConversation h uid sid otherUserId
  | sendMessage uid sid receiverId message messageType =>
      exact inv_stepSendMessage h uid sid receiverId message messageType
  | typingStart uid sid receiverId => exact h
  | typingStop uid sid receiverId => exact h
  | callInitiate uid sid callId callType callerId callerName callerImage
      recipientId =>
      exact inv_stepCallInitiate h uid sid callId callType callerId
        callerName callerImage recipientId
  | callAccept uid sid callId callerId =>
      have := stepCallAccept_fst s uid sid callId callerId
      simpa [step, this] using h
  | callReject uid sid callId callerId reason =>
      exact inv_erase_calls h callId
  | callEnd uid sid callId recipientId => exact inv_erase_calls h callId
  | callTimeout uid sid callId recipientId => exact inv_erase_calls h callId
  | webrtcOffer uid sid callId recipientId offer =>
      have := stepWebrtcOffer_fst s uid sid callId recipientId offer
      simpa [step, this] using h
  | webrtcAnswer uid sid callId recipientId answer =>
      have := stepWebrtcAnswer_fst s uid sid callId recipientId answer
      simpa [step, this] using h
  | webrtcIce uid sid callId recipientId candidate =>
      have := stepWebrtcIce_fst s uid sid callId recipientId candidate
      simpa [step, this] using h
  | disconnect uid sid => exact inv_stepDisconnect h uid sid
  | tick ms =>
      obtain ⟨h1, h2, h3⟩ := h
      exact ⟨h1, h2, h3⟩

theorem reachable_inv {s : State} (h : Reachable s) : Inv s := by
  induction h with
  | init => exact inv_init
  | step _ e ih => exact inv_step ih e

end SM

/-! ### Reachability helpers -/

namespace SM

theorem reachable_run {s : State} (h : Reachable s) :
    ∀ evs : List Event, Reachable (run s evs)
  | [] => h
  | e :: es => reachable_run (h.step e) es

end SM

/-! ### Claim C1 -/

/-- Claim C1: at every reachable state of the wired coordinator, at most
one call in the active-call map has a given user as its callee (in this
variant every map entry is non-terminal, i.e. ringing or accepted), and
a well-formed initiate targeting a callee who already has such a call
fails with the busy reason and leaves the state unchanged, notifying
only the caller's socket. -/
theorem C1_at_most_one_call_per_callee (s : SM.State)
    (hreach : SM.Reachable s) :
    SM.CalleeUnique s.activeCalls ∧
    ∀ uid sid callId callType callerName callerImage recipientId,
      (∃ p ∈ s.activeCalls, p.2.recipientId = recipientId) →
      SM.step s (SM.Event.callInitiate uid sid callId callType uid
        callerName callerImage recipientId) =
        (s, [Emit.callFailed (Target.sock sid) callId
              "Recipient is already in a call"]) := by
  obtain ⟨h1, h2, h3⟩ := SM.reachable_inv hreach
  refine ⟨h1, ?_⟩
  intro uid sid callId callType callerName callerImage recipientId hbusy
  obtain ⟨p, hp, hrec⟩ := hbusy
  have honline : (JsMap.get s.connectedUsers recipientId).isSome :=
    hrec ▸ h2 p hp
  have hfind : ((s.activeCalls.map Prod.snd).find?
      (fun c => c.recipientId == recipientId)).isSome := by
    rw [List.find?_isSome]
    exact ⟨p.2, List.mem_map_of_mem _ hp, by simp [hrec]⟩
  obtain ⟨u, hu⟩ := Option.isSome_iff_exists.mp honline
  obtain ⟨c, hc⟩ := Option.isSome_iff_exists.mp hfind
  show SM.stepCallInitiate s uid sid callId callType uid callerName
    callerImage recipientId = _
  simp [SM.stepCallInitiate, hu, hc]

/-- Witness for C1 at the concrete ringing scenario: the callee
uniqueness holds there and a second call to the busy callee `u2` is
refused without touching the state. -/
theorem C1_at_most_one_call_per_callee_witness :
    SM.CalleeUnique sRinging.activeCalls ∧
    SM.step sRinging (SM.Event.callInitiate "u1" "A" "c2" CallType.video
      "u1" "Alice" none "u2") =
      (sRinging, [Emit.callFailed (Target.sock "A") "c2"
        "Recipient is already in a call"]) := by
  have h := C1_at_most_one_call_per_callee sRinging
    (SM.reachable_run SM.Reachable.init ringingTrace)
  exact ⟨h.1, h.2 "u1" "A" "c2" CallType.video "Alice" none "u2"
    (by decide)⟩

/-! ### Claim C2 -/

/-- Claim C2 counterexample: after user `u` reconnects, the stored
handle is `"B"`, yet a disconnect event arriving from the superseded
handle `"A"` still evicts the fresh registration — the stored handle is
never compared with the disconnecting connection's handle. -/
theorem C2_stale_disconnect_evicts :
    (JsMap.get sReconnected.connectedUsers "u").map UserSocket.socketId =
      some "B" ∧
    JsMap.get (SM.step sReconnected
      (SM.Event.disconnect "u" "A")).1.connectedUsers "u" = none := by
  decide

/-- Claim C2 amended: the disconnect handler removes the presence
registration of the disconnecting user unconditionally, keyed by user id
alone; no handle comparison guards the removal, so a stale disconnect
from a superseded connection evicts a fresh registration. -/
theorem C2_disconnect_removes_unconditionally (s : SM.State)
    (uid sid : String) :
    JsMap.get (SM.step s (SM.Event.disconnect uid sid)).1.connectedUsers
      uid = none := by
  show JsMap.get (JsMap.erase s.connectedUsers uid) uid = none
  exact JsMap.get_erase_self _ _

/-! ### Claim C3 -/

theorem CH.clearCallTimeout_activeCalls (s : CH.State) (callId : String) :
    (CH.clearCallTimeout s callId).activeCalls = s.activeCalls := by
  unfold CH.clearCallTimeout
  rcases JsMap.get s.callTimeouts callId with _ | tid
  · rfl
  · rfl

/-- Claim C3: an accept transitions the call to `accepted` (and emits
the acceptance notification) only when the call exists and the acceptor
is its stored callee; a missing call or a foreign acceptor produces an
error on the acceptor's socket and leaves the state unchanged. -/
theorem C3_accept_only_by_callee (s : CH.State)
    (uid sid callId callerId : String) :
    (JsMap.get s.activeCalls callId = none →
      CH.handleCallAccept s uid sid callId callerId =
        (s, [Emit.callError (Target.sock sid) callId "Call not found"])) ∧
    (∀ call, JsMap.get s.activeCalls callId = some call →
      call.recipientId ≠ uid →
      CH.handleCallAccept s uid sid callId callerId =
        (s, [Emit.callError (Target.sock sid) callId
              "Not authorized to accept this call"])) ∧
    (∀ call, JsMap.get s.activeCalls callId = some call →
      call.recipientId = uid →
      (CH.handleCallAccept s uid sid callId callerId).2 =
        [Emit.callAccepted (Target.room callerId) callId uid none] ∧
      JsMap.get (CH.handleCallAccept s uid sid callId
          callerId).1.activeCalls callId =
        some { call with status := CallStatus.accepted }) := by
  refine ⟨?_, ?_, ?_⟩
  · intro hnone
    unfold CH.handleCallAccept
    rw [hnone]
  · intro call hsome hne
    unfold CH.handleCallAccept
    rw [hsome]
    dsimp only
    rw [if_pos hne]
  · intro call hsome heq
    unfold CH.handleCallAccept
    rw [hsome]
    dsimp only
    rw [if_neg (show ¬call.recipientId ≠ uid from fun h => h heq)]
    refine ⟨rfl, ?_⟩
    rw [CH.clearCallTimeout_activeCalls]
    exact JsMap.get_set_self _ _ _

/-- Witness for C3: in the concrete ringing `CH` state, the callee `u2`
accepts successfully (status becomes `accepted`), and an accept against
the empty state reports "Call not found". -/
theorem C3_accept_only_by_callee_witness :
    ((CH.handleCallAccept chRinging "u2" "B" "c1" "u1").2 =
      [Emit.callAccepted (Target.room "u1") "c1" "u2" none] ∧
     JsMap.get (CH.handleCallAccept chRinging "u2" "B" "c1"
         "u1").1.activeCalls "c1" =
       some ⟨"c1", CallType.video, "u1", "Alice", none, "u2", 0,
         CallStatus.accepted⟩) ∧
    CH.handleCallAccept CH.init "u2" "B" "c1" "u1" =
      (CH.init, [Emit.callError (Target.sock "B") "c1" "Call not found"]) := by
  constructor
  · have h := (C3_accept_only_by_callee chRinging "u2" "B" "c1" "u1").2.2
      ⟨"c1", CallType.video, "u1", "Alice", none, "u2", 0,
        CallStatus.ringing⟩ (by decide) (by decide)
    exact ⟨h.1, h.2⟩
  · exact (C3_accept_only_by_callee CH.init "u2" "B" "c1" "u1").1 rfl

/-! ### Claim C4 -/

/-- Claim C4 counterexample: in the wired controller no timer is ever
scheduled.  After call `c1` is placed into ringing and 30 001 ms of
wall-clock time pass with no client action, nothing has changed but the
clock and the record is still present — there is no transition that
could remove it without a client event. -/
theorem C4_no_server_timer_in_wired_controller :
    sRingingLater = { sRinging with now := 30001 } ∧
    (JsMap.get sRingingLater.activeCalls "c1").isSome = true := by
  decide

/-- Claim C4 amended (proved on the `part_001` variant, the cited code
that actually schedules a timer): a delivered timer is consumed, so it
can never fire twice; a fire whose call record is already gone only
consumes the timer and emits nothing; a fire whose record is present
removes the record and map entry and notifies both stored parties; a
successful initiate schedules the timer with deadline `now + 30000`; and
an accept by the callee cancels the pending timer mapped to the call. -/
theorem P1.fire_none {s : P1.State} {tid : Nat}
    (hf : s.pending.find? (fun x => x.1 == tid) = none) :
    P1.fire s tid = (s, []) := by
  unfold P1.fire
  rw [hf]

theorem P1.fire_absent {s : P1.State} {tid : Nat} {callId : String}
    {d : Nat}
    (hf : s.pending.find? (fun x => x.1 == tid) = some (tid, callId, d))
    (hget : JsMap.get s.activeCalls callId = none) :
    P1.fire s tid =
      ({ s with pending := s.pending.filter (fun x => x.1 != tid) },
       []) := by
  unfold P1.fire
  rw [hf]
  dsimp only
  rw [hget]

theorem P1.fire_present {s : P1.State} {tid : Nat} {callId : String}
    {d : Nat} {call : P1Call}
    (hf : s.pending.find? (fun x => x.1 == tid) = some (tid, callId, d))
    (hget : JsMap.get s.activeCalls callId = some call) :
    P1.fire s tid =
      ({ s with
          pending := s.pending.filter (fun x => x.1 != tid),
          activeCalls := JsMap.erase s.activeCalls callId,
          callTimeouts := JsMap.erase s.callTimeouts callId },
       [Emit.callTimeoutEmit (Target.room call.callerId) callId
          (some "No answer from recipient"),
        Emit.callTimeoutEmit (Target.room call.recipientId) callId
          (some "Call timed out")]) := by
  unfold P1.fire
  rw [hf]
  dsimp only
  rw [hget]

theorem C4_timer_fires_exactly_once (s : P1.State) (tid : Nat) :
    (∀ x ∈ (P1.fire s tid).1.pending, x.1 ≠ tid) ∧
    P1.fire (P1.fire s tid).1 tid = ((P1.fire s tid).1, []) ∧
    (∀ callId deadline,
      s.pending.find? (fun x => x.1 == tid) = some (tid, callId, deadline) →
      JsMap.get s.activeCalls callId = none →
      P1.fire s tid =
        ({ s with pending := s.pending.filter (fun x => x.1 != tid) }, [])) ∧
    (∀ callId deadline call,
      s.pending.find? (fun x => x.1 == tid) = some (tid, callId, deadline) →
      JsMap.get s.activeCalls callId = some call →
      P1.fire s tid =
        ({ s with
            pending := s.pending.filter (fun x => x.1 != tid),
            activeCalls := JsMap.erase s.activeCalls callId,
            callTimeouts := JsMap.erase s.callTimeouts callId },
         [Emit.callTimeoutEmit (Target.room call.callerId) callId
            (some "No answer from recipient"),
          Emit.callTimeoutEmit (Target.room call.recipientId) callId
            (some "Call timed out")])) ∧
    (∀ uid sid callId callType callerName callerImage recipientId
        recipientName,
      (JsMap.get s.connectedUsers recipientId).isSome →
      (s.activeCalls.map Prod.snd).find?
        (fun c => c.recipientId == recipientId) = none →
      (s.nextTid, callId, s.now + 30000) ∈
        (P1.callInitiate s uid sid callId callType uid callerName
          callerImage recipientId recipientName).1.pending ∧
      JsMap.get (P1.callInitiate s uid sid callId callType uid callerName
        callerImage recipientId recipientName).1.callTimeouts callId =
        some s.nextTid) ∧
    (∀ uid sid callId callerId call tid',
      JsMap.get s.activeCalls callId = some call →
      call.recipientId = uid →
      JsMap.get s.callTimeouts callId = some tid' →
      ∀ x ∈ (P1.callAccept s uid sid callId callerId).1.pending,
        x.1 ≠ tid') := by
  have hfire1 : ∀ x ∈ (P1.fire s tid).1.pending, x.1 ≠ tid := by
    rcases hf : s.pending.find? (fun x => x.1 == tid) with _ | y
    · rw [P1.fire_none hf]
      intro x hx
      have := List.find?_eq_none.mp hf x hx
      simpa using this
    · obtain ⟨t, c, d⟩ := y
      have ht : t = tid := by
        have := List.find?_some hf
        simpa using this
      subst ht
      rcases hg : JsMap.get s.activeCalls c with _ | call
      · rw [P1.fire_absent hf hg]
        intro x hx
        have := (List.mem_filter.mp hx).2
        simpa using this
      · rw [P1.fire_present hf hg]
        intro x hx
        have := (List.mem_filter.mp hx).2
        simpa using this
  refine ⟨hfire1, ?_, ?_, ?_, ?_, ?_⟩
  · apply P1.fire_none
    rw [List.find?_eq_none]
    intro x hx
    simpa using hfire1 x hx
  · intro callId deadline hfind hget
    exact P1.fire_absent hfind hget
  · intro callId deadline call hfind hget
    exact P1.fire_present hfind hget
  · intro uid sid callId callType callerName callerImage recipientId
      recipientName honline hbusy
    obtain ⟨u, hu⟩ := Option.isSome_iff_exists.mp honline
    unfold P1.callInitiate
    rw [if_neg (show ¬uid ≠ uid from fun h => h rfl)]
    rw [if_neg (show ¬((JsMap.get s.connectedUsers recipientId).isNone =
      true) from by simp [hu])]
    rw [hbusy]
    dsimp only
    refine ⟨?_, ?_⟩
    · exact List.mem_append_right _ (List.mem_singleton.mpr rfl)
    · exact JsMap.get_set_self _ _ _
  · intro uid sid callId callerId call tid' hget hrecip htid
    unfold P1.callAccept
    rw [hget]
    dsimp only
    rw [if_neg (show ¬call.recipientId ≠ uid from fun h => h hrecip)]
    unfold P1.clearCallTimeout
    rw [htid]
    dsimp only
    intro x hx
    have := (List.mem_filter.mp hx).2
    simpa using this

/-- Witness for C4 at the concrete `P1` ringing scenario: firing timer 0
at its deadline removes call `c1`, notifies both parties, and a second
delivery of the same timer is a no-op. -/
theorem C4_timer_fires_exactly_once_witness :
    P1.fire p1Ringing 0 =
      ({ p1Ringing with
          pending := [], activeCalls := [], callTimeouts := [] },
       [Emit.callTimeoutEmit (Target.room "u1") "c1"
          (some "No answer from recipient"),
        Emit.callTimeoutEmit (Target.room "u2") "c1"
          (some "Call timed out")]) ∧
    P1.fire (P1.fire p1Ringing 0).1 0 = ((P1.fire p1Ringing 0).1, []) := by
  have h := C4_timer_fires_exactly_once p1Ringing 0
  have h4 := h.2.2.2.1 "c1" 30000
    ⟨"c1", CallType.video, "u1", "Alice", none, "u2", "Bob", 0⟩
    (by decide) (by decide)
  exact ⟨h4.trans (by decide), h.2.1⟩

/-! ### Claim C5 -/

/-- Claim C5 counterexample: with callee `u2` offline, the wired
initiate handler reports "Recipient is offline" to the caller and
returns early — no call record is created (the active-call map stays
empty), refuting "a Call record is still created despite the callee
being offline". -/
theorem C5_offline_initiate_creates_no_record :
    SM.step sOnlyCaller (SM.Event.callInitiate "u1" "A" "c1"
      CallType.video "u1" "Alice" none "u2") =
      (sOnlyCaller,
       [Emit.callFailed (Target.sock "A") "c1" "Recipient is offline"]) ∧
    (SM.step sOnlyCaller (SM.Event.callInitiate "u1" "A" "c1"
      CallType.video "u1" "Alice" none "u2")).1.activeCalls = [] := by
  decide

/-- Claim C5 amended: when the callee is offline, the failure is
reported to the caller as "Recipient is offline" and the handler
returns before creating anything: the offline check blocks record
creation and the whole state is unchanged. -/
theorem C5_offline_initiate_reports_and_blocks (s : SM.State)
    (uid sid callId : String) (callType : CallType) (callerName : String)
    (callerImage : Option String) (recipientId : String)
    (hoff : JsMap.get s.connectedUsers recipientId = none) :
    SM.step s (SM.Event.callInitiate uid sid callId callType uid
      callerName callerImage recipientId) =
      (s, [Emit.callFailed (Target.sock sid) callId
            "Recipient is offline"]) := by
  show SM.stepCallInitiate s uid sid callId callType uid callerName
    callerImage recipientId = _
  unfold SM.stepCallInitiate
  rw [if_neg (show ¬uid ≠ uid from fun h => h rfl)]
  rw [if_pos (show (JsMap.get s.connectedUsers recipientId).isNone = true
    from by simp [hoff])]

/-- Witness for C5 amended at the concrete single-user state. -/
theorem C5_offline_initiate_reports_and_blocks_witness :
    SM.step sOnlyCaller (SM.Event.callInitiate "u1" "A" "c9"
      CallType.audio "u1" "Alice" none "u7") =
      (sOnlyCaller,
       [Emit.callFailed (Target.sock "A") "c9" "Recipient is offline"]) :=
  C5_offline_initiate_reports_and_blocks sOnlyCaller "u1" "A" "c9"
    CallType.audio "Alice" none "u7" (by decide)

/-! ### Claim C6 -/

/-- Claim C6: every failing initiate (caller mismatch, callee offline,
or callee busy) leaves the coordinator state exactly as it was and
produces exactly one failure notification, addressed to the initiating
caller's own socket — the callee receives nothing. -/
theorem C6_failed_initiate_changes_nothing (s : SM.State)
    (uid sid callId : String) (callType : CallType)
    (callerId callerName : String) (callerImage : Option String)
    (recipientId : String)
    (hfail : callerId ≠ uid ∨
      JsMap.get s.connectedUsers recipientId = none ∨
      (∃ p ∈ s.activeCalls, p.2.recipientId = recipientId)) :
    ∃ reason,
      SM.step s (SM.Event.callInitiate uid sid callId callType callerId
        callerName callerImage recipientId) =
        (s, [Emit.callFailed (Target.sock sid) callId reason]) := by
  show ∃ reason, SM.stepCallInitiate s uid sid callId callType callerId
    callerName callerImage recipientId = _
  by_cases h1 : callerId ≠ uid
  · refine ⟨"Authentication error", ?_⟩
    unfold SM.stepCallInitiate
    rw [if_pos h1]
  · by_cases h2 : (JsMap.get s.connectedUsers recipientId).isNone = true
    · refine ⟨"Recipient is offline", ?_⟩
      unfold SM.stepCallInitiate
      rw [if_neg h1, if_pos h2]
    · have hbusy : ∃ p ∈ s.activeCalls, p.2.recipientId = recipientId := by
        rcases hfail with h | h | h
        · exact absurd h h1
        · exact absurd (by simp [h]) h2
        · exact h
      obtain ⟨p, hp, hrec⟩ := hbusy
      have hfind : ((s.activeCalls.map Prod.snd).find?
          (fun c => c.recipientId == recipientId)).isSome := by
        rw [List.find?_isSome]
        exact ⟨p.2, List.mem_map_of_mem _ hp, by simp [hrec]⟩
      obtain ⟨c, hc⟩ := Option.isSome_iff_exists.mp hfind
      refine ⟨"Recipient is already in a call", ?_⟩
      unfold SM.stepCallInitiate
      rw [if_neg h1, if_neg h2, hc]

/-- Witness for C6: a spoofed caller id at the empty state fails with a
single notification to the spoofing caller's socket and no state
change. -/
theorem C6_failed_initiate_changes_nothing_witness :
    ∃ reason,
      SM.step SM.init (SM.Event.callInitiate "u1" "A" "c1" CallType.video
        "u9" "Eve" none "u2") =
        (SM.init, [Emit.callFailed (Target.sock "A") "c1" reason]) :=
  C6_failed_initiate_changes_nothing SM.init "u1" "A" "c1" CallType.video
    "u9" "Eve" none "u2" (Or.inl (by decide))

/-! ### Claim C8 -/

/-- Claim C8: for a relay event whose call id is unknown, the
ICE-candidate relay does nothing at all (no error to the sender), while
the offer and answer relays emit an explicit `webrtc:error` to the
sender's socket; in all three cases the state is unchanged and no
payload is forwarded to anyone. -/
theorem C8_relay_unknown_call (s : SM.State)
    (uid sid callId recipientId payload : String)
    (habsent : JsMap.get s.activeCalls callId = none) :
    SM.step s (SM.Event.webrtcIce uid sid callId recipientId payload) =
      (s, []) ∧
    SM.step s (SM.Event.webrtcOffer uid sid callId recipientId payload) =
      (s, [Emit.webrtcError (Target.sock sid) callId "Call not found"]) ∧
    SM.step s (SM.Event.webrtcAnswer uid sid callId recipientId payload) =
      (s, [Emit.webrtcError (Target.sock sid) callId "Call not found"]) := by
  have hnone : (JsMap.get s.activeCalls callId).isNone = true := by
    simp [habsent]
  refine ⟨?_, ?_, ?_⟩
  · show SM.stepWebrtcIce s uid sid callId recipientId payload = _
    unfold SM.stepWebrtcIce
    rw [if_pos hnone]
  · show SM.stepWebrtcOffer s uid sid callId recipientId payload = _
    unfold SM.stepWebrtcOffer
    rw [if_pos hnone]
  · show SM.stepWebrtcAnswer s uid sid callId recipientId payload = _
    unfold SM.stepWebrtcAnswer
    rw [if_pos hnone]

/-- Witness for C8 at the empty state with an unknown call id. -/
theorem C8_relay_unknown_call_witness :
    SM.step SM.init (SM.Event.webrtcIce "u1" "A" "c1" "u2" "cand") =
      (SM.init, []) ∧
    SM.step SM.init (SM.Event.webrtcOffer "u1" "A" "c1" "u2" "sdp") =
      (SM.init,
       [Emit.webrtcError (Target.sock "A") "c1" "Call not found"]) ∧
    SM.step SM.init (SM.Event.webrtcAnswer "u1" "A" "c1" "u2" "sdp") =
      (SM.init,
       [Emit.webrtcError (Target.sock "A") "c1" "Call not found"]) := by
  have h1 := C8_relay_unknown_call SM.init "u1" "A" "c1" "u2" "cand" rfl
  have h2 := C8_relay_unknown_call SM.init "u1" "A" "c1" "u2" "sdp" rfl
  exact ⟨h1.1, h2.2.1, h2.2.2⟩

/-! ### Claim C9 -/

/-- Claim C9: a reject or end naming an unknown call id is tolerated as
a no-op on the coordinator state — the state is unchanged — and the
operation is idempotent: repeating it produces exactly the same state
and notifications as performing it once.  (A notification is still sent
to the payload-supplied target each time; see C10.) -/
theorem C9_reject_end_unknown_noop (s : SM.State)
    (uid sid callId callerId recipientId : String) (reason : Option String)
    (habsent : JsMap.get s.activeCalls callId = none) :
    (SM.step s (SM.Event.callReject uid sid callId callerId reason)).1 =
      s ∧
    (SM.step s (SM.Event.callEnd uid sid callId recipientId)).1 = s ∧
    SM.step (SM.step s (SM.Event.callReject uid sid callId callerId
      reason)).1 (SM.Event.callReject uid sid callId callerId reason) =
      SM.step s (SM.Event.callReject uid sid callId callerId reason) ∧
    SM.step (SM.step s (SM.Event.callEnd uid sid callId recipientId)).1
      (SM.Event.callEnd uid sid callId recipientId) =
      SM.step s (SM.Event.callEnd uid sid callId recipientId) := by
  have hrej : (SM.step s (SM.Event.callReject uid sid callId callerId
      reason)).1 = s := by
    show { s with activeCalls := JsMap.erase s.activeCalls callId } = s
    rw [JsMap.erase_of_get_none habsent]
  have hend : (SM.step s (SM.Event.callEnd uid sid callId
      recipientId)).1 = s := by
    show { s with activeCalls := JsMap.erase s.activeCalls callId } = s
    rw [JsMap.erase_of_get_none habsent]
  exact ⟨hrej, hend, by rw [hrej], by rw [hend]⟩

/-- Witness for C9 at the empty state. -/
theorem C9_reject_end_unknown_noop_witness :
    (SM.step SM.init (SM.Event.callReject "u1" "A" "c1" "u2" none)).1 =
      SM.init ∧
    (SM.step SM.init (SM.Event.callEnd "u1" "A" "c1" "u2")).1 = SM.init := by
  have h := C9_reject_end_unknown_noop SM.init "u1" "A" "c1" "u2" "u2"
    none rfl
  exact ⟨h.1, h.2.1⟩

/-! ### Claim C10 -/

/-- Claim C10: the reject and end handlers delete the named call record
unconditionally and address the notification to the client-supplied
`callerId` / `recipientId` from the payload, never consulting the
participants stored in the record and never checking that the acting
user is a party to the call.  Instantiated concretely: outsider
`mallory` terminates the `u1`–`u2` call `c1` and directs the rejection
notice to arbitrary user `eve`. -/
theorem C10_reject_end_without_party_check (s : SM.State)
    (uid sid callId callerId recipientId : String)
    (reason : Option String) :
    SM.step s (SM.Event.callReject uid sid callId callerId reason) =
      ({ s with activeCalls := JsMap.erase s.activeCalls callId },
       [Emit.callRejected (Target.room callerId) callId
          (reason.getD "Call rejected") uid]) ∧
    SM.step s (SM.Event.callEnd uid sid callId recipientId) =
      ({ s with activeCalls := JsMap.erase s.activeCalls callId },
       [Emit.callEnded (Target.room recipientId) callId uid
          (some (match JsMap.get s.activeCalls callId with
                 | some callData => SM.getCallDuration s callData.timestamp
                 | none => 0)) none]) ∧
    SM.step sRinging (SM.Event.callReject "mallory" "M" "c1" "eve" none) =
      ({ sRinging with activeCalls := [] },
       [Emit.callRejected (Target.room "eve") "c1" "Call rejected"
          "mallory"]) := by
  refine ⟨rfl, rfl, by decide⟩

/-! ### Claim C7 -/

theorem SM.stepDisconnect_eq (s : SM.State) (uid sid : String) :
    SM.stepDisconnect s uid sid =
      ({ s with
          activeCalls :=
            s.activeCalls.filter (fun p => !(SM.involves uid p.2)),
          connectedUsers := JsMap.erase s.connectedUsers uid },
       (SM.joinedConversations s uid).map
         (fun conversationId =>
           Emit.userLeftConversation (Target.room conversationId) uid
             conversationId (some "disconnect")) ++
       (s.activeCalls.filter (fun p => SM.involves uid p.2)).map
         (fun p =>
           Emit.callEnded (Target.room (SM.otherParty uid p.2)) p.1 uid
             none (some "User disconnected"))) := rfl

theorem SM.step_disconnect_noop (s : SM.State) (uid sid : String)
    (hcu : JsMap.get s.connectedUsers uid = none)
    (hcalls : ∀ p ∈ s.activeCalls, SM.involves uid p.2 = false) :
    SM.step s (SM.Event.disconnect uid sid) = (s, []) := by
  have h1 : s.activeCalls.filter (fun p => SM.involves uid p.2) = [] := by
    rw [List.filter_eq_nil_iff]
    intro a ha
    simp [hcalls a ha]
  have h2 : s.activeCalls.filter (fun p => !(SM.involves uid p.2)) =
      s.activeCalls := by
    rw [List.filter_eq_self]
    intro a ha
    simp [hcalls a ha]
  have hj : SM.joinedConversations s uid = [] := by
    unfold SM.joinedConversations
    rw [hcu]
  show SM.stepDisconnect s uid sid = (s, [])
  rw [SM.stepDisconnect_eq, hj, h1, h2, JsMap.erase_of_get_none hcu]
  rfl

/-- Claim C7: disconnecting `uid` removes exactly the calls in which
`uid` is caller or callee (notifying the other party of each), emits
exactly one left-notification per conversation the user had joined, and
an immediately following second disconnect of the same user (from any
handle) changes no state and emits nothing. -/
theorem C7_disconnect_cleans_up (s : SM.State) (hreach : SM.Reachable s)
    (uid sid sid' : String) :
    (SM.step s (SM.Event.disconnect uid sid)).1.activeCalls =
      s.activeCalls.filter (fun p => !(SM.involves uid p.2)) ∧
    (∀ p ∈ s.activeCalls, SM.involves uid p.2 = true →
      Emit.callEnded (Target.room (SM.otherParty uid p.2)) p.1 uid none
        (some "User disconnected") ∈
        (SM.step s (SM.Event.disconnect uid sid)).2) ∧
    (∀ conversationId,
      (SM.step s (SM.Event.disconnect uid sid)).2.countP
        (emitIsLeftFor conversationId) =
        if conversationId ∈ SM.joinedConversations s uid then 1 else 0) ∧
    SM.step (SM.step s (SM.Event.disconnect uid sid)).1
      (SM.Event.disconnect uid sid') =
      ((SM.step s (SM.Event.disconnect uid sid)).1, []) := by
  have hstep : SM.step s (SM.Event.disconnect uid sid) =
      ({ s with
          activeCalls :=
            s.activeCalls.filter (fun p => !(SM.involves uid p.2)),
          connectedUsers := JsMap.erase s.connectedUsers uid },
       (SM.joinedConversations s uid).map
         (fun conversationId =>
           Emit.userLeftConversation (Target.room conversationId) uid
             conversationId (some "disconnect")) ++
       (s.activeCalls.filter (fun p => SM.involves uid p.2)).map
         (fun p =>
           Emit.callEnded (Target.room (SM.otherParty uid p.2)) p.1 uid
             none (some "User disconnected"))) :=
    SM.stepDisconnect_eq s uid sid
  rw [hstep]
  dsimp only
  refine ⟨rfl, ?_, ?_, ?_⟩
  · intro p hp hinv
    exact List.mem_append_right _
      (List.mem_map_of_mem _ (List.mem_filter.mpr ⟨hp, by simp [hinv]⟩))
  · intro conversationId
    rw [List.countP_append]
    have hended : ((s.activeCalls.filter
        (fun p => SM.involves uid p.2)).map
          (fun p =>
            Emit.callEnded (Target.room (SM.otherParty uid p.2)) p.1 uid
              none (some "User disconnected"))).countP
          (emitIsLeftFor conversationId) = 0 := by
      rw [List.countP_eq_zero]
      intro a ha
      obtain ⟨q, hq, rfl⟩ := List.mem_map.mp ha
      simp [emitIsLeftFor]
    have hleft : ((SM.joinedConversations s uid).map
        (fun conversationId' =>
          Emit.userLeftConversation (Target.room conversationId') uid
            conversationId' (some "disconnect"))).countP
          (emitIsLeftFor conversationId) =
        (SM.joinedConversations s uid).count conversationId := by
      rw [List.countP_map]
      rfl
    rw [hended, hleft, Nat.add_zero]
    have hnodup : (SM.joinedConversations s uid).Nodup := by
      obtain ⟨h1, h2, h3⟩ := SM.reachable_inv hreach
      unfold SM.joinedConversations
      rcases hg : JsMap.get s.connectedUsers uid with _ | us
      · simp
      · exact h3 _ (JsMap.mem_of_get_eq_some hg)
    by_cases hmem : conversationId ∈ SM.joinedConversations s uid
    · rw [if_pos hmem]
      exact List.count_eq_one_of_mem hnodup hmem
    · rw [if_neg hmem]
      exact List.count_eq_zero_of_not_mem hmem
  · apply SM.step_disconnect_noop
    · exact JsMap.get_erase_self _ _
    · intro p hp
      have := (List.mem_filter.mp hp).2
      simpa using this

/-- Witness for C7 at the concrete scenario where `u1` joined the
conversation with `u2` and has the ringing call `c1`: the disconnect
empties the call map, notifies `u2`, emits exactly one left-notification
for room `u1_u2`, and a second disconnect is a complete no-op. -/
theorem C7_disconnect_cleans_up_witness :
    (SM.step sJoinedCall (SM.Event.disconnect "u1" "A")).1.activeCalls =
      [] ∧
    Emit.callEnded (Target.room "u2") "c1" "u1" none
      (some "User disconnected") ∈
      (SM.step sJoinedCall (SM.Event.disconnect "u1" "A")).2 ∧
    (SM.step sJoinedCall (SM.Event.disconnect "u1" "A")).2.countP
      (emitIsLeftFor "u1_u2") = 1 ∧
    SM.step (SM.step sJoinedCall (SM.Event.disconnect "u1" "A")).1
      (SM.Event.disconnect "u1" "B") =
      ((SM.step sJoinedCall (SM.Event.disconnect "u1" "A")).1, []) := by
  have h := C7_disconnect_cleans_up sJoinedCall
    (SM.reachable_run SM.Reachable.init joinedCallTrace) "u1" "A" "B"
  refine ⟨?_, ?_, ?_, h.2.2.2⟩
  · rw [h.1]
    decide
  · exact h.2.1 ("c1", ⟨"c1", CallType.video, "u1", "Alice", none, "u2",
      0⟩) (by decide) (by decide)
  · rw [h.2.2.1 "u1_u2"]
    decide
